import Mathlib

/-!
Verification of the Health Butler swarm orchestrator core.

Shallow embedding of:
- the rule-based fallback delegation planner
  (src/coordinator/coordinator_agent.py and
   src/health_butler/coordinator/coordinator_agent.py),
- the bounded-retry execution wrapper, the message bus, the
  context builder, the per-step worker execution and the response
  synthesizer (src/health_butler/swarm.py).

Strings are modelled as lists of characters. Python substring tests,
str.lower, str.strip and str.capitalize are modelled character by
character on ASCII text, matching Python semantics on the ASCII inputs
and keyword vocabularies that appear in the source. Wall-clock
timestamps and log output are not modelled; sleeps are recorded as the
list of delay values the code would pass to time.sleep.
-/

namespace HealthButler

/-- The apostrophe character, kept out of string literals. -/
def apos : Char := Char.ofNat 39

/-! ### String primitives -/

/-- Python `needle in hay` helper: needle is a leading segment of hay. -/
def leadsWith : List Char → List Char → Bool
  | [], _ => true
  | _ :: _, [] => false
  | a :: as, b :: bs => a == b && leadsWith as bs

/-- Python substring containment `needle in hay`. -/
def hasSub (needle : List Char) : List Char → Bool
  | [] => leadsWith needle []
  | c :: rest => leadsWith needle (c :: rest) || hasSub needle rest

/-- Python `str.lower()` on ASCII text. -/
def lowerStr (s : List Char) : List Char := s.map Char.toLower

/-- Python whitespace class used by `str.strip()` and regex white space. -/
def isSpaceChar (c : Char) : Bool :=
  c == ' ' || c == '\t' || c == '\n' || c == '\x0d' ||
    c == Char.ofNat 11 || c == Char.ofNat 12

/-- Python `str.strip()`. -/
def stripL (s : List Char) : List Char :=
  ((s.dropWhile isSpaceChar).reverse.dropWhile isSpaceChar).reverse

/-- Python `str.capitalize()`: first character upper, rest lower. -/
def capLower : List Char → List Char
  | [] => []
  | c :: rest => Char.toUpper c :: rest.map Char.toLower

/-- Regex word character class (ASCII fragment of Python `\w`). -/
def isWordChar (c : Char) : Bool := c.isAlphanum || c == '_'

/-! ### Regular expressions

Exactly the constructs used by `_PROFILE_QUERY_PATTERNS` in
src/coordinator/coordinator_agent.py: literals, the white-space class
with `*`/`+`, alternation, optional groups, word boundaries and the
end anchor. Matching follows `re.search` semantics: does any position
of the text start a match.
-/

inductive RE where
  | lit (w : List Char)
  | ws
  | wsStar
  | seq (a b : RE)
  | alt (a b : RE)
  | opt (a : RE)
  | wb
  | eol
deriving Repr

/-- Match a literal word at the head of the text, tracking the last
consumed character (needed for word boundaries). -/
def litRun : List Char → Option Char → List Char → List (Option Char × List Char)
  | [], prev, s => [(prev, s)]
  | _ :: _, _, [] => []
  | w :: wrest, _, c :: rest =>
    if c == w then litRun wrest (some c) rest else []

/-- All ways `\s*` can consume a leading run of white space. -/
def wsStarRun : Option Char → List Char → List (Option Char × List Char)
  | prev, [] => [(prev, [])]
  | prev, c :: rest =>
    (prev, c :: rest) :: (if isSpaceChar c then wsStarRun (some c) rest else [])

/-- All ways a regex can match at the head of the text. Each result is
the last consumed character together with the remaining text. -/
def mrun : RE → Option Char → List Char → List (Option Char × List Char)
  | .lit w, prev, s => litRun w prev s
  | .ws, _, [] => []
  | .ws, _, c :: rest => if isSpaceChar c then [(some c, rest)] else []
  | .wsStar, prev, s => wsStarRun prev s
  | .seq a b, prev, s => (mrun a prev s).flatMap (fun pr => mrun b pr.1 pr.2)
  | .alt a b, prev, s => mrun a prev s ++ mrun b prev s
  | .opt a, prev, s => (prev, s) :: mrun a prev s
  | .wb, prev, s =>
    let pw := match prev with | some c => isWordChar c | none => false
    let nw := match s with | c :: _ => isWordChar c | [] => false
    if pw != nw then [(prev, s)] else []
  | .eol, prev, s => if s == [] || s == ['\n'] then [(prev, s)] else []

/-- Try to match at this position, else advance one character. -/
def searchFrom (r : RE) : Option Char → List Char → Bool
  | prev, [] => !(mrun r prev []).isEmpty
  | prev, c :: rest =>
    !(mrun r prev (c :: rest)).isEmpty || searchFrom r (some c) rest

/-- Python `re.search(r, s) is not None`. -/
def reSearch (r : RE) (s : List Char) : Bool := searchFrom r none s

/-- Sequence a nonempty list of regexes. -/
def reSeq : RE → List RE → RE
  | r, [] => r
  | r, x :: xs => .seq r (reSeq x xs)

/-- Alternate a nonempty list of regexes. -/
def reAlt : RE → List RE → RE
  | r, [] => r
  | r, x :: xs => .alt r (reAlt x xs)

/-- Literal regex from a string. -/
def reStr (s : String) : RE := .lit s.data

/-- Regex `\s+`. -/
def wsPlus : RE := .seq .ws .wsStar

/-! ### The profile query pattern set (src/coordinator/coordinator_agent.py) -/

def patWhoAmI : RE :=
  reSeq .wb [reStr "who", .wsStar, reStr "am", .wsStar, reStr "i", .wb]

def patWhoami : RE := reSeq .wb [reStr "whoami", .wb]

def patMyProfile : RE := reSeq .wb [reStr "my", wsPlus, reStr "profile", .wb]

def patShowProfile : RE :=
  reSeq .wb [reStr "show", wsPlus, .opt (.seq (reStr "me") wsPlus),
    .opt (.seq (reStr "my") wsPlus), reStr "profile", .wb]

def patProfileEnd : RE :=
  reSeq .wb [reAlt (reStr "profile") [reStr "stats", reStr "metrics"],
    .wb, .wsStar, .opt (reStr "?"), .eol]

def patWhatIsMy : RE :=
  reSeq .wb [reStr "what",
    .alt (.seq (.opt (.lit [apos])) (reStr "s")) (reStr " is"),
    wsPlus, reStr "my", wsPlus,
    reAlt (reStr "name") [reStr "age", reStr "height", reStr "weight",
      reStr "goal", reStr "diet", reStr "conditions", reStr "activity",
      reStr "preferences"],
    .wb]

def patMyAttr : RE :=
  reSeq .wb [reStr "my", wsPlus,
    reAlt (reStr "name") [reStr "age", reStr "height", reStr "weight",
      reStr "goal", reStr "goals", reStr "diet", reStr "conditions",
      reStr "activity", reStr "preferences"],
    .wb, .wsStar, .opt (reStr "?"), .eol]

def patCalorieTarget : RE :=
  reSeq .wb [.opt (.seq (reStr "daily") wsPlus), reStr "calorie",
    wsPlus, reStr "target", .wb]

def patTargetCalories : RE :=
  reSeq .wb [reStr "target", wsPlus, reStr "calories", .wb]

def patDailyTarget : RE :=
  reSeq .wb [reStr "daily", wsPlus, reStr "target", .wb]

def profilePatterns : List RE :=
  [patWhoAmI, patWhoami, patMyProfile, patShowProfile, patProfileEnd,
   patWhatIsMy, patMyAttr, patCalorieTarget, patTargetCalories,
   patDailyTarget]

/-- `_matches_any_pattern(text_lower, _PROFILE_QUERY_PATTERNS)`. -/
def matchesProfile (tl : List Char) : Bool :=
  profilePatterns.any (fun r => reSearch r tl)

/-! ### Delegations and the rule-based fallback planners -/

/-- One planned step: a target agent id and its task text. -/
structure Delegation where
  agent : List Char
  task : List Char
deriving DecidableEq, Repr

def nutritionId : List Char := "nutrition".data
def fitnessId : List Char := "fitness".data

/-- Fixed follow-up task of the dual-category chain in
src/coordinator/coordinator_agent.py. -/
def chainTaskSrc : List Char :=
  "Based on the previous nutrition analysis, suggest appropriate exercises.".data

/-- Fixed follow-up task of the `ate` chain, shared by both coordinator
versions. -/
def chainTaskHB : List Char :=
  "Suggest exercises to balance this meal intake".data

/-- Task text of the profile branch in `analyze_and_delegate`
(src/coordinator/coordinator_agent.py). -/
def profileTaskSrc : List Char :=
  "Show the user".data ++ [apos] ++
    "s saved profile details and current goals/preferences.".data

/-- `word in task_lower` over a keyword vocabulary. -/
def hasAnyKw (kws : List (List Char)) (tl : List Char) : Bool :=
  kws.any (fun w => hasSub w tl)

/-- Fitness keyword vocabulary of src/coordinator/coordinator_agent.py. -/
def fitnessKwSrc : List (List Char) :=
  (["exercise", "workout", "work out", "gym", "fitness", "training",
    "stretch", "yoga", "cardio", "hiit", "plank", "squat", "pushup",
    "push-up", "pull-up", "pullup", "deadlift", "bench press",
    "walk", "run", "jog", "swim", "bike", "cycling", "steps",
    "activity", "active", "sedentary",
    "tall", "height", "weight", "bmi", "body", "muscle", "fat percentage",
    "goal", "progress", "track", "lose weight", "gain muscle",
    "weight loss", "weight gain", "bulk", "cut",
    "suggest exercise", "recommend exercise", "what exercise",
    "what workout", "how to burn",
    "completed", "finished", "done with"] : List String).map String.data

/-- Nutrition keyword vocabulary of src/coordinator/coordinator_agent.py. -/
def nutritionKwSrc : List (List Char) :=
  (["food", "eat", "ate", "eating", "eaten",
    "calorie", "calories", "kcal",
    "meal", "meals", "dish",
    "nutrition", "nutrient", "nutritional",
    "diet", "dietary",
    "lunch", "dinner", "breakfast", "brunch", "snack", "supper",
    "recipe", "ingredient", "cook", "cooking",
    "protein", "carb", "carbs", "fat", "fiber", "sugar", "sodium",
    "macro", "macros", "intake", "portion",
    "analyze this meal", "what did i eat", "how many calories"] :
      List String).map String.data

/-- The consumption transition test shared by both `_simple_delegate`
versions: the substrings ate, just ate, i ate tested against the
lower-cased task. -/
def ateTransition (tl : List Char) : Bool :=
  hasSub "ate".data tl || hasSub "just ate".data tl || hasSub "i ate".data tl

/-- `CoordinatorAgent._simple_delegate` of
src/coordinator/coordinator_agent.py. -/
def simpleDelegateSrc (task : List Char) : List Delegation :=
  if !(lowerStr task).isEmpty && matchesProfile (lowerStr task) then
    [⟨fitnessId, task⟩]
  else if hasAnyKw nutritionKwSrc (lowerStr task) &&
      hasAnyKw fitnessKwSrc (lowerStr task) then
    [⟨nutritionId, task⟩, ⟨fitnessId, chainTaskSrc⟩]
  else if hasAnyKw nutritionKwSrc (lowerStr task) &&
      ateTransition (lowerStr task) then
    [⟨nutritionId, task⟩, ⟨fitnessId, chainTaskHB⟩]
  else if hasAnyKw fitnessKwSrc (lowerStr task) then
    [⟨fitnessId, task⟩]
  else if hasAnyKw nutritionKwSrc (lowerStr task) then
    [⟨nutritionId, task⟩]
  else
    [⟨nutritionId, task⟩]

/-- `CoordinatorAgent.analyze_and_delegate` of
src/coordinator/coordinator_agent.py in the state the claims address:
the external planning client is None, so after the profile check the
keyword fallback runs. -/
def analyzeAndDelegateNoClientSrc (userTask : List Char) : List Delegation :=
  if !(lowerStr (stripL userTask)).isEmpty &&
      matchesProfile (lowerStr (stripL userTask)) then
    [⟨fitnessId, profileTaskSrc⟩]
  else
    simpleDelegateSrc userTask

/-- Goal keyword list of
src/health_butler/coordinator/coordinator_agent.py. -/
def goalKwHB : List (List Char) :=
  (["goal", "progress", "track", "lose weight", "gain muscle"] :
    List String).map String.data

/-- Completion keyword list of the health_butler coordinator. -/
def completionKwHB : List (List Char) :=
  (["completed", "finished", "done with"] : List String).map String.data

/-- Activity keyword list paired with the completion check. -/
def completionActHB : List (List Char) :=
  (["walk", "run", "swim", "exercise", "workout"] : List String).map
    String.data

/-- Nutrition keyword list of the health_butler coordinator. -/
def nutritionKwHB : List (List Char) :=
  (["food", "eat", "ate", "calorie", "meal", "nutrition",
    "diet", "lunch", "dinner", "breakfast", "snack"] : List String).map
    String.data

/-- Fitness keyword list of the health_butler coordinator. -/
def fitnessKwHB : List (List Char) :=
  (["exercise", "walk", "run", "gym", "workout", "fitness",
    "steps", "activity", "burn calories"] : List String).map String.data

/-- `CoordinatorAgent._simple_delegate` of
src/health_butler/coordinator/coordinator_agent.py. -/
def simpleDelegateHB (task : List Char) : List Delegation :=
  if hasAnyKw goalKwHB (lowerStr task) then
    [⟨fitnessId, task⟩]
  else if hasAnyKw completionKwHB (lowerStr task) &&
      hasAnyKw completionActHB (lowerStr task) then
    [⟨fitnessId, task⟩]
  else if hasAnyKw nutritionKwHB (lowerStr task) &&
      ateTransition (lowerStr task) then
    [⟨nutritionId, task⟩, ⟨fitnessId, chainTaskHB⟩]
  else
    let ds : List Delegation :=
      (if hasAnyKw nutritionKwHB (lowerStr task) then
        [⟨nutritionId, task⟩] else []) ++
      (if hasAnyKw fitnessKwHB (lowerStr task) then
        [⟨fitnessId, task⟩] else [])
    if ds.isEmpty then [⟨nutritionId, task⟩] else ds

/-! ### Bounded retry with exponential backoff
(`retry_with_exponential_backoff` in src/health_butler/swarm.py)

A single call outcome either returns a value, raises an exception of
the retryable tuple (requests.RequestException, ConnectionError,
TimeoutError in the swarm instantiation), or raises any other
exception. A callable is modelled as a function of the attempt index,
so a call that behaves differently across attempts is expressible. -/

inductive CallOut (α : Type) where
  | ok (v : α)
  | retryable (msg : List Char)
  | fatal (msg : List Char)
deriving DecidableEq, Repr

/-- Result of running the wrapper: the value returned or the exception
propagated, the number of times the wrapped call was invoked, and the
delays passed to time.sleep in order. -/
structure RetryRun (α : Type) where
  outcome : CallOut α
  calls : Nat
  sleeps : List ℚ
deriving DecidableEq, Repr

/-- The `for attempt in range(max_retries + 1)` loop. `retriesLeft`
is the number of retries still allowed after the current attempt, so
the loop body runs with `retriesLeft = maxRetries - attempt`. -/
def retryGo {α : Type} (f : Nat → CallOut α) (factor : ℚ) :
    Nat → Nat → ℚ → List ℚ → RetryRun α
  | attempt, retriesLeft, delay, sleeps =>
    match f attempt, retriesLeft with
    | .ok v, _ => ⟨.ok v, attempt + 1, sleeps⟩
    | .fatal m, _ => ⟨.fatal m, attempt + 1, sleeps⟩
    | .retryable m, 0 => ⟨.retryable m, attempt + 1, sleeps⟩
    | .retryable _, r + 1 =>
      retryGo f factor (attempt + 1) r (delay * factor) (sleeps ++ [delay])

/-- `retry_with_exponential_backoff(max_retries, initial_delay,
backoff_factor, exceptions)` applied to one call. -/
def retryExec {α : Type} (f : Nat → CallOut α) (maxRetries : Nat)
    (initialDelay factor : ℚ) : RetryRun α :=
  retryGo f factor 0 maxRetries initialDelay []

/-! ### The swarm orchestrator (src/health_butler/swarm.py) -/

/-- One MessageBus entry. The wall-clock timestamp field is not
modelled. -/
structure Message where
  mfrom : List Char
  mto : List Char
  mtype : List Char
  content : List Char
deriving DecidableEq, Repr

/-- One entry of `agent_outputs`: agent, task, result text and the
error flag. -/
structure WorkerOutput where
  agent : List Char
  task : List Char
  result : List Char
  error : Bool
deriving DecidableEq, Repr

/-- One context entry built by `_build_agent_context`. -/
inductive CtxEntry where
  | imagePath (content : List Char)
  | userCtx (content : List Char)
  | prevResult (origin : List Char) (content : List Char)
deriving DecidableEq, Repr

/-- A worker capability: `worker.execute(task, context)`, indexed by
the attempt number so that per-attempt transient failures are
expressible. -/
def Worker : Type := List Char → List CtxEntry → Nat → CallOut (List Char)

/-- `HealthSwarm._build_agent_context`. The image path is attached
only for the nutrition agent; user context is passed through when
present; previous outputs contribute one entry per non-failed step in
execution order. -/
def buildAgentContext (agentName : List Char)
    (imagePath userContext : Option (List Char))
    (previousOutputs : List WorkerOutput) : List CtxEntry :=
  (match imagePath with
   | some p =>
     if !p.isEmpty && agentName == nutritionId then
       [CtxEntry.imagePath p]
     else []
   | none => []) ++
  (match userContext with
   | some u => [CtxEntry.userCtx u]
   | none => []) ++
  (previousOutputs.filter (fun o => !o.error)).map
    (fun o => CtxEntry.prevResult o.agent o.result)

/-- Result of `_execute_single_worker`: the recorded WorkerOutput, the
messages this call itself appended to the bus, and how many times the
worker was invoked. -/
structure StepRun where
  output : WorkerOutput
  msgs : List Message
  calls : Nat
deriving DecidableEq, Repr

def systemId : List Char := "system".data
def coordinatorId : List Char := "coordinator".data
def userId : List Char := "user".data
def taskType : List Char := "task".data
def resultType : List Char := "result".data
def statusType : List Char := "status".data

/-- `HealthSwarm._execute_single_worker`. An unknown agent id is
recorded as a failed output with zero invocations; otherwise the call
runs under the retry wrapper (max_retries=3, initial_delay=1.0,
backoff_factor=2.0) and any propagated exception is converted into a
failed output. -/
def executeSingleWorker (workers : List Char → Option Worker)
    (agentName agentTask : List Char)
    (imagePath userContext : Option (List Char))
    (previousOutputs : List WorkerOutput) : StepRun :=
  match workers agentName with
  | none =>
    ⟨⟨agentName, agentTask, "Unknown agent: ".data ++ agentName, true⟩,
      [], 0⟩
  | some w =>
    let context := buildAgentContext agentName imagePath userContext
      previousOutputs
    let working : Message :=
      ⟨agentName, systemId, statusType,
        capLower agentName ++ " Agent working...".data⟩
    let run := retryExec (w agentTask context) 3 1 2
    match run.outcome with
    | .ok r => ⟨⟨agentName, agentTask, r, false⟩, [working], run.calls⟩
    | .retryable m =>
      ⟨⟨agentName, agentTask, "Error: ".data ++ m, true⟩, [working],
        run.calls⟩
    | .fatal m =>
      ⟨⟨agentName, agentTask, "Error: ".data ++ m, true⟩, [working],
        run.calls⟩

/-- One iteration of the `_execute_delegations` loop: the routing
status and task messages, the single worker execution, and the result
message appended only when the step did not fail. Returns the messages
appended during this step and the recorded output. -/
def runStep (workers : List Char → Option Worker)
    (imagePath userContext : Option (List Char))
    (acc : List WorkerOutput) (d : Delegation) :
    List Message × WorkerOutput :=
  let mRoute : Message :=
    ⟨coordinatorId, systemId, statusType,
      "Routing to ".data ++ capLower d.agent ++ " Agent...".data⟩
  let mTask : Message := ⟨coordinatorId, d.agent, taskType, d.task⟩
  let sr := executeSingleWorker workers d.agent d.task imagePath
    userContext acc
  let resultMsgs : List Message :=
    if sr.output.error then []
    else [⟨d.agent, coordinatorId, resultType, sr.output.result⟩]
  ([mRoute, mTask] ++ sr.msgs ++ resultMsgs, sr.output)

/-- `HealthSwarm._execute_delegations`: run the plan sequentially,
accumulating outputs (success or failure) and bus messages. -/
def execDelegations (workers : List Char → Option Worker)
    (imagePath userContext : Option (List Char)) :
    List Delegation → List WorkerOutput → List Message × List WorkerOutput
  | [], acc => ([], acc)
  | d :: rest, acc =>
    let step := runStep workers imagePath userContext acc d
    let tail := execDelegations workers imagePath userContext rest
      (acc ++ [step.2])
    (step.1 ++ tail.1, tail.2)

def apologyMsg : List Char :=
  "I apologize, but I encountered an error processing your request. Please try again.".data

/-- `HealthSwarm._synthesize_results`. Returns the response (or the
exception the synthesis capability raised) together with a flag
recording whether the synthesis capability was invoked at all. -/
def synthesizeResults (synth : List Char → CallOut (List Char))
    (_delegations : List Delegation) (agentOutputs : List WorkerOutput) :
    CallOut (List Char) × Bool :=
  match agentOutputs.filter (fun o => !o.error) with
  | [] => (.ok apologyMsg, false)
  | [o] => (.ok o.result, false)
  | successful =>
    let body := successful.foldl
      (fun acc o =>
        acc ++ "[".data ++ capLower o.agent ++ " Agent]:\n".data ++
          o.result ++ "\n\n".data)
      "Synthesize the following agent outputs into a cohesive response:\n\n".data
    (synth (body ++ "Provide a unified, user-friendly summary.".data), true)

/-- The dictionary `HealthSwarm.execute` returns. -/
structure ExecResult where
  response : List Char
  delegations : List Delegation
  agentOutputs : List WorkerOutput
  messageLog : List Message
deriving DecidableEq, Repr

/-- `HealthSwarm.execute`: clear the bus, record the incoming task,
plan, execute each delegation, synthesize, record the final result
message and return. A failure raised by the synthesis capability
propagates to the caller, in which case nothing is returned. -/
def executeSwarm (workers : List Char → Option Worker)
    (plan : List Char → List Delegation)
    (synth : List Char → CallOut (List Char)) (userInput : List Char)
    (imagePath userContext : Option (List Char)) : CallOut ExecResult :=
  let mUser : Message := ⟨userId, coordinatorId, taskType, userInput⟩
  let mAnalyzing : Message :=
    ⟨coordinatorId, systemId, statusType, "Analyzing user intent...".data⟩
  let delegations := plan userInput
  let ran := execDelegations workers imagePath userContext delegations []
  let mFinal : Message :=
    ⟨coordinatorId, systemId, statusType, "Preparing final response...".data⟩
  match (synthesizeResults synth delegations ran.2).1 with
  | .ok resp =>
    .ok ⟨resp, delegations, ran.2,
      [mUser, mAnalyzing] ++ ran.1 ++
        [mFinal, ⟨coordinatorId, userId, resultType, resp⟩]⟩
  | .retryable m => .retryable m
  | .fatal m => .fatal m

/-! ### MessageBus with an explicit heap

`get_all_messages` returns `self.messages.copy()`. To state that the
copy is defensive, lists are modelled as heap cells addressed by
index: the bus owns one cell, a copy allocates a fresh cell, and
mutating a cell leaves every other cell untouched. -/

structure BusHeap where
  cells : List (List Message)
deriving DecidableEq, Repr

/-- Read the list stored in a cell. -/
def readCell (h : BusHeap) (r : Nat) : List Message := h.cells.getD r []

/-- Overwrite a cell in place. -/
def writeCell (h : BusHeap) (r : Nat) (v : List Message) : BusHeap :=
  ⟨h.cells.set r v⟩

/-- `MessageBus.send`: append one message to the bus cell. -/
def busSend (h : BusHeap) (bus : Nat)
    (mfrom mto mtype content : List Char) : BusHeap :=
  writeCell h bus (readCell h bus ++ [⟨mfrom, mto, mtype, content⟩])

/-- `MessageBus.get_all_messages`: allocate a fresh cell holding a copy
of the log and hand back its address. -/
def getAllMessagesH (h : BusHeap) (bus : Nat) : BusHeap × Nat :=
  (⟨h.cells ++ [readCell h bus]⟩, h.cells.length)

/-- Caller-side `.append(m)` on a returned list. -/
def listAppendH (h : BusHeap) (r : Nat) (m : Message) : BusHeap :=
  writeCell h r (readCell h r ++ [m])

/-- Caller-side `.clear()` on a returned list. -/
def listClearH (h : BusHeap) (r : Nat) : BusHeap :=
  writeCell h r []

/-! ### Concrete fixtures used to instantiate the theorems -/

/-- Response projection of an `execute` run: the returned response
when the run returns, or the propagated exception. -/
def respOf : CallOut ExecResult → CallOut (List Char)
  | .ok r => .ok r.response
  | .retryable m => .retryable m
  | .fatal m => .fatal m

/-- A call that raises a retryable failure on every attempt. -/
def failingCall : Nat → CallOut (List Char) :=
  fun _ => .retryable "Persistent error".data

/-- A call that raises retryable failures on the first two attempts
and then succeeds. -/
def flakyCall : Nat → CallOut (List Char) :=
  fun j => if j < 2 then .retryable "Network error".data
           else .ok "success".data

/-- A call that raises a non-retryable failure. -/
def wrongExcCall : Nat → CallOut (List Char) :=
  fun _ => .fatal "Wrong error type".data

/-- A worker whose invocation always raises a non-retryable failure. -/
def errWorker : Worker := fun _ _ _ => .fatal "API down".data

/-- A worker that always succeeds. -/
def okWorker : Worker := fun _ _ _ => .ok "All good".data

/-- An empty worker registry. -/
def noWorkers : List Char → Option Worker := fun _ => none

/-- A registry in which every id resolves to the failing worker. -/
def errRegistry : List Char → Option Worker := fun _ => some errWorker

/-- A registry in which every id resolves to the succeeding worker. -/
def okRegistry : List Char → Option Worker := fun _ => some okWorker

/-- A synthesis capability that always returns a fixed string. -/
def synthOk : List Char → CallOut (List Char) := fun _ => .ok "ok".data

/-! ## Theorems -/

/-- Unfolding rule: a successful attempt returns at once. -/
theorem retryGo_ok {α : Type} {f : Nat → CallOut α} {a : Nat} {v : α}
    (factor : ℚ) (r : Nat) (d : ℚ) (s : List ℚ) (h : f a = .ok v) :
    retryGo f factor a r d s = ⟨.ok v, a + 1, s⟩ := by
  unfold retryGo
  rw [h]

/-- Unfolding rule: a non-retryable failure propagates at once. -/
theorem retryGo_fatal {α : Type} {f : Nat → CallOut α} {a : Nat}
    {m : List Char} (factor : ℚ) (r : Nat) (d : ℚ) (s : List ℚ)
    (h : f a = .fatal m) :
    retryGo f factor a r d s = ⟨.fatal m, a + 1, s⟩ := by
  unfold retryGo
  rw [h]

/-- Unfolding rule: a retryable failure on the final allowed attempt
is re-raised. -/
theorem retryGo_retry_last {α : Type} {f : Nat → CallOut α} {a : Nat}
    {m : List Char} (factor : ℚ) (d : ℚ) (s : List ℚ)
    (h : f a = .retryable m) :
    retryGo f factor a 0 d s = ⟨.retryable m, a + 1, s⟩ := by
  unfold retryGo
  rw [h]

/-- Unfolding rule: a retryable failure with retries left sleeps and
continues with the scaled delay. -/
theorem retryGo_retry_step {α : Type} {f : Nat → CallOut α} {a : Nat}
    {m : List Char} (factor : ℚ) (r : Nat) (d : ℚ) (s : List ℚ)
    (h : f a = .retryable m) :
    retryGo f factor a (r + 1) d s =
      retryGo f factor (a + 1) r (d * factor) (s ++ [d]) := by
  conv_lhs => unfold retryGo
  rw [h]

/-- The retry loop performs at most `attempt + retriesLeft + 1`
invocations from any loop state. -/
theorem retryGo_calls_le {α : Type} (f : Nat → CallOut α) (factor : ℚ) :
    ∀ (r a : Nat) (d : ℚ) (s : List ℚ),
    (retryGo f factor a r d s).calls ≤ a + r + 1 := by
  intro r
  induction r with
  | zero =>
    intro a d s
    cases hf : f a with
    | ok v => rw [retryGo_ok factor 0 d s hf]
    | retryable m => rw [retryGo_retry_last factor d s hf]
    | fatal m => rw [retryGo_fatal factor 0 d s hf]
  | succ n ih =>
    intro a d s
    cases hf : f a with
    | ok v =>
      rw [retryGo_ok factor (n + 1) d s hf]
      show a + 1 ≤ a + (n + 1) + 1
      omega
    | retryable m =>
      rw [retryGo_retry_step factor n d s hf]
      have := ih (a + 1) (d * factor) (s ++ [d])
      omega
    | fatal m =>
      rw [retryGo_fatal factor (n + 1) d s hf]
      show a + 1 ≤ a + (n + 1) + 1
      omega

/-- If every attempt in the window raises a retryable failure, the
loop re-raises the failure of the last attempt after invoking the call
once per iteration. -/
theorem retryGo_allFail {α : Type} (f : Nat → CallOut α)
    (g : Nat → List Char) (factor : ℚ) :
    ∀ (r a : Nat) (d : ℚ) (s : List ℚ),
    (∀ j, a ≤ j → j ≤ a + r → f j = .retryable (g j)) →
    (retryGo f factor a r d s).outcome = .retryable (g (a + r)) ∧
    (retryGo f factor a r d s).calls = a + r + 1 := by
  intro r
  induction r with
  | zero =>
    intro a d s h
    have hf := h a (Nat.le_refl a) (by omega)
    rw [retryGo_retry_last factor d s hf]
    simp
  | succ n ih =>
    intro a d s h
    have hf := h a (Nat.le_refl a) (by omega)
    rw [retryGo_retry_step factor n d s hf]
    have := ih (a + 1) (d * factor) (s ++ [d])
      (fun j h1 h2 => h j (by omega) (by omega))
    have hidx : a + 1 + n = a + (n + 1) := by omega
    rw [hidx] at this
    exact ⟨this.1, by omega⟩

/-- If the first `k` attempts raise retryable failures and attempt `k`
succeeds, the loop returns the success value after `k + 1`
invocations. -/
theorem retryGo_succeeds {α : Type} (f : Nat → CallOut α) (factor : ℚ)
    (v : α) :
    ∀ (k r a : Nat) (d : ℚ) (s : List ℚ),
    k ≤ r →
    (∀ j, j < k → ∃ m, f (a + j) = .retryable m) →
    f (a + k) = .ok v →
    (retryGo f factor a r d s).outcome = .ok v ∧
    (retryGo f factor a r d s).calls = a + k + 1 := by
  intro k
  induction k with
  | zero =>
    intro r a d s _ _ hk
    rw [Nat.add_zero] at hk
    rw [retryGo_ok factor r d s hk]
    simp
  | succ n ih =>
    intro r a d s hkr hfail hk
    obtain ⟨m, hm⟩ := hfail 0 (Nat.succ_pos n)
    rw [Nat.add_zero] at hm
    obtain ⟨r', rfl⟩ : ∃ r', r = r' + 1 :=
      ⟨r - 1, by omega⟩
    rw [retryGo_retry_step factor r' d s hm]
    have := ih r' (a + 1) (d * factor) (s ++ [d]) (by omega)
      (fun j hj => by
        obtain ⟨m', hm'⟩ := hfail (j + 1) (by omega)
        exact ⟨m', by rw [show a + 1 + j = a + (j + 1) by omega]; exact hm'⟩)
      (by rw [show a + 1 + n = a + (n + 1) by omega]; exact hk)
    exact ⟨this.1, by omega⟩

/-- C3: the retry wrapper invokes the call at most maxRetries plus one
times; if every attempt raises a retryable failure it is invoked
exactly maxRetries plus one times and the last failure is re-raised;
if it fails k less than maxRetries retryable times and then succeeds,
it is invoked exactly k plus one times and the success value is
returned; a non-retryable failure propagates after exactly one
invocation with no sleep. -/
theorem c3_executeWithRetry :
    (∀ (α : Type) (f : Nat → CallOut α) (mr : Nat) (d fac : ℚ),
      (retryExec f mr d fac).calls ≤ mr + 1) ∧
    (∀ (α : Type) (f : Nat → CallOut α) (g : Nat → List Char) (mr : Nat)
        (d fac : ℚ),
      (∀ j, j ≤ mr → f j = .retryable (g j)) →
      (retryExec f mr d fac).outcome = .retryable (g mr) ∧
      (retryExec f mr d fac).calls = mr + 1) ∧
    (∀ (α : Type) (f : Nat → CallOut α) (v : α) (k mr : Nat) (d fac : ℚ),
      k < mr →
      (∀ j, j < k → ∃ m, f j = .retryable m) →
      f k = .ok v →
      (retryExec f mr d fac).outcome = .ok v ∧
      (retryExec f mr d fac).calls = k + 1) ∧
    (∀ (α : Type) (f : Nat → CallOut α) (m : List Char) (mr : Nat)
        (d fac : ℚ),
      f 0 = .fatal m →
      retryExec f mr d fac = ⟨.fatal m, 1, []⟩) := by
  refine ⟨?_, ?_, ?_, ?_⟩
  · intro α f mr d fac
    have := retryGo_calls_le f fac mr 0 d []
    simpa [retryExec] using this
  · intro α f g mr d fac h
    have := retryGo_allFail f g fac mr 0 d []
      (fun j h1 h2 => h j (by omega))
    simpa [retryExec] using this
  · intro α f v k mr d fac hk hfail hsucc
    have := retryGo_succeeds f fac v k mr 0 d [] (by omega)
      (fun j hj => by simpa using hfail j hj)
      (by simpa using hsucc)
    simpa [retryExec] using this
  · intro α f m mr d fac h
    unfold retryExec retryGo
    rw [h]

/-- Witness for C3 at the concrete calls mirrored from the retry tests
of the repository: a permanently failing call with maxRetries 2 is invoked 3 times
and re-raises; a call failing twice then succeeding with maxRetries 3
is invoked 3 times and returns the value; a non-retryable failure is
invoked once with no sleep. -/
theorem c3_executeWithRetry_witness :
    (retryExec failingCall 2 1 2).outcome =
      .retryable "Persistent error".data ∧
    (retryExec failingCall 2 1 2).calls = 3 ∧
    (retryExec flakyCall 3 1 2).outcome = .ok "success".data ∧
    (retryExec flakyCall 3 1 2).calls = 3 ∧
    retryExec wrongExcCall 2 1 2 = ⟨.fatal "Wrong error type".data, 1, []⟩ ∧
    (retryExec failingCall 2 1 2).calls ≤ 3 := by
  have hAll := c3_executeWithRetry.2.1 (List Char) failingCall
    (fun _ => "Persistent error".data) 2 1 2 (fun j _ => rfl)
  have hFlaky := c3_executeWithRetry.2.2.1 (List Char) flakyCall
    "success".data 2 3 1 2 (by omega)
    (fun j hj => ⟨"Network error".data, by simp [flakyCall, hj]⟩)
    (by simp [flakyCall])
  have hFatal := c3_executeWithRetry.2.2.2 (List Char) wrongExcCall
    "Wrong error type".data 2 1 2 rfl
  have hBound := c3_executeWithRetry.1 (List Char) failingCall 2 1 2
  exact ⟨hAll.1, hAll.2, hFlaky.1, hFlaky.2, hFatal, hBound⟩

/-- C8: a delegation naming a worker id absent from the registry is
recorded immediately as a failed WorkerOutput carrying an error
description, with zero invocation attempts and no retry engagement. -/
theorem c8_unknown_worker :
    ∀ (workers : List Char → Option Worker) (a t : List Char)
      (img uc : Option (List Char)) (prev : List WorkerOutput),
    workers a = none →
    executeSingleWorker workers a t img uc prev =
      ⟨⟨a, t, "Unknown agent: ".data ++ a, true⟩, [], 0⟩ := by
  intro workers a t img uc prev h
  unfold executeSingleWorker
  rw [h]

/-- Witness for C8: a concrete delegation to an unregistered id. -/
theorem c8_unknown_worker_witness :
    executeSingleWorker noWorkers "ghost".data "do it".data none none [] =
      ⟨⟨"ghost".data, "do it".data,
        "Unknown agent: ghost".data, true⟩, [], 0⟩ := by
  have := c8_unknown_worker noWorkers "ghost".data "do it".data
    none none [] rfl
  simpa using this

/-- The profile pattern set never matches the empty string. -/
theorem matchesProfile_nil : matchesProfile [] = false := by decide

/-- C1: with the planning client unavailable, both fallback
classifiers return a plan of length at least one for every input, and
when no keyword rule matches they return exactly one delegation to the
default nutrition worker carrying the raw input text. -/
theorem c1_fallback_nonempty_default :
    (∀ t, 1 ≤ (analyzeAndDelegateNoClientSrc t).length) ∧
    (∀ t, 1 ≤ (simpleDelegateSrc t).length) ∧
    (∀ t, 1 ≤ (simpleDelegateHB t).length) ∧
    (∀ t, matchesProfile (lowerStr t) = false →
      hasAnyKw fitnessKwSrc (lowerStr t) = false →
      hasAnyKw nutritionKwSrc (lowerStr t) = false →
      simpleDelegateSrc t = [⟨nutritionId, t⟩]) ∧
    (∀ t, hasAnyKw goalKwHB (lowerStr t) = false →
      hasAnyKw completionKwHB (lowerStr t) = false →
      hasAnyKw nutritionKwHB (lowerStr t) = false →
      hasAnyKw fitnessKwHB (lowerStr t) = false →
      simpleDelegateHB t = [⟨nutritionId, t⟩]) := by
  have hSrc : ∀ t, 1 ≤ (simpleDelegateSrc t).length := by
    intro t
    unfold simpleDelegateSrc
    repeat' split
    all_goals simp
  refine ⟨?_, hSrc, ?_, ?_, ?_⟩
  · intro t
    unfold analyzeAndDelegateNoClientSrc
    split
    · simp
    · exact hSrc t
  · intro t
    unfold simpleDelegateHB
    repeat' split
    all_goals simp_all
  · intro t h1 h2 h3
    simp [simpleDelegateSrc, h1, h2, h3]
  · intro t h1 h2 h3 h4
    simp [simpleDelegateHB, h1, h2, h3, h4]

/-- Witness for C1 at an input matching no rule in either version. -/
theorem c1_fallback_nonempty_default_witness :
    1 ≤ (analyzeAndDelegateNoClientSrc "Tell me about health".data).length ∧
    simpleDelegateSrc "Tell me about health".data =
      [⟨nutritionId, "Tell me about health".data⟩] ∧
    simpleDelegateHB "Tell me about health".data =
      [⟨nutritionId, "Tell me about health".data⟩] := by
  refine ⟨c1_fallback_nonempty_default.1 _, ?_, ?_⟩
  · exact c1_fallback_nonempty_default.2.2.2.1 _
      (by decide) (by decide) (by decide)
  · exact c1_fallback_nonempty_default.2.2.2.2 _
      (by decide) (by decide) (by decide) (by decide)

/-- C5: any text whose stripped lower-case form matches a profile
pattern is routed to exactly one delegation targeting the fitness
worker, before any keyword rule is consulted. -/
theorem c5_profile_precedence :
    ∀ t, matchesProfile (lowerStr (stripL t)) = true →
    analyzeAndDelegateNoClientSrc t = [⟨fitnessId, profileTaskSrc⟩] := by
  intro t h
  have hne : (lowerStr (stripL t)).isEmpty = false := by
    cases hE : lowerStr (stripL t) with
    | nil => rw [hE] at h; exact absurd h (by decide)
    | cons c rest => simp
  unfold analyzeAndDelegateNoClientSrc
  simp [hne, h]

/-- Witness for C5: a plain identity query and an identity query that
also contains nutrition and fitness keywords both route to the single
fitness delegation. -/
theorem c5_profile_precedence_witness :
    matchesProfile (lowerStr (stripL "Who am I?".data)) = true ∧
    analyzeAndDelegateNoClientSrc "Who am I?".data =
      [⟨fitnessId, profileTaskSrc⟩] ∧
    hasAnyKw nutritionKwSrc
      (lowerStr "who am i and what food or workout should i pick".data) =
      true ∧
    hasAnyKw fitnessKwSrc
      (lowerStr "who am i and what food or workout should i pick".data) =
      true ∧
    analyzeAndDelegateNoClientSrc
      "who am i and what food or workout should i pick".data =
      [⟨fitnessId, profileTaskSrc⟩] := by
  refine ⟨by decide, c5_profile_precedence _ (by decide),
    by decide, by decide, c5_profile_precedence _ (by decide)⟩

/-- Counterexample for C6: on a text containing a nutrition keyword
and a fitness keyword but no consumption transition, the
src/coordinator fallback does not return two independent raw-text
delegations; the second delegation carries the fixed chained follow-up
text instead of the user text. -/
theorem c6_counterexample :
    hasAnyKw nutritionKwSrc (lowerStr "what food fits my workout".data) =
      true ∧
    hasAnyKw fitnessKwSrc (lowerStr "what food fits my workout".data) =
      true ∧
    ateTransition (lowerStr "what food fits my workout".data) = false ∧
    simpleDelegateSrc "what food fits my workout".data =
      [⟨nutritionId, "what food fits my workout".data⟩,
       ⟨fitnessId, chainTaskSrc⟩] ∧
    chainTaskSrc ≠ "what food fits my workout".data := by
  refine ⟨by decide, by decide, by decide, by decide, by decide⟩

/-- C6 as amended: the src/coordinator fallback chains every
dual-category text (transition phrase or not) into nutrition with the
raw text followed by fitness with the fixed follow-up, while the
health_butler fallback returns two independent delegations each
carrying the raw text for dual-category texts without a transition
phrase, provided no goal or completion rule fires first. -/
theorem c6_dual_category_amended :
    (∀ t, matchesProfile (lowerStr t) = false →
      hasAnyKw nutritionKwSrc (lowerStr t) = true →
      hasAnyKw fitnessKwSrc (lowerStr t) = true →
      simpleDelegateSrc t =
        [⟨nutritionId, t⟩, ⟨fitnessId, chainTaskSrc⟩]) ∧
    (∀ t, hasAnyKw goalKwHB (lowerStr t) = false →
      (hasAnyKw completionKwHB (lowerStr t) &&
        hasAnyKw completionActHB (lowerStr t)) = false →
      ateTransition (lowerStr t) = false →
      hasAnyKw nutritionKwHB (lowerStr t) = true →
      hasAnyKw fitnessKwHB (lowerStr t) = true →
      simpleDelegateHB t = [⟨nutritionId, t⟩, ⟨fitnessId, t⟩]) := by
  constructor
  · intro t h1 h2 h3
    simp [simpleDelegateSrc, h1, h2, h3]
  · intro t h1 h2 h3 h4 h5
    simp [simpleDelegateHB, h1, h2, h3, h4, h5]

/-- Witness for the amended C6 at a dual-category text with no
transition phrase. -/
theorem c6_dual_category_amended_witness :
    simpleDelegateSrc "what food fits a workout plan".data =
      [⟨nutritionId, "what food fits a workout plan".data⟩,
       ⟨fitnessId, chainTaskSrc⟩] ∧
    simpleDelegateHB "what food fits a workout plan".data =
      [⟨nutritionId, "what food fits a workout plan".data⟩,
       ⟨fitnessId, "what food fits a workout plan".data⟩] := by
  refine ⟨c6_dual_category_amended.1 _ (by decide) (by decide) (by decide),
    c6_dual_category_amended.2 _ (by decide) (by decide) (by decide)
      (by decide) (by decide)⟩

/-- C7: on the canonical chained request, both fallback classifiers
return exactly two delegations, nutrition first with the verbatim
input, then fitness with the fixed templated follow-up text. -/
theorem c7_chained_plan :
    simpleDelegateSrc
      "I just ate a 800 calorie lunch. What exercise should I do?".data =
      [⟨nutritionId,
        "I just ate a 800 calorie lunch. What exercise should I do?".data⟩,
       ⟨fitnessId, chainTaskSrc⟩] ∧
    simpleDelegateHB
      "I just ate a 800 calorie lunch. What exercise should I do?".data =
      [⟨nutritionId,
        "I just ate a 800 calorie lunch. What exercise should I do?".data⟩,
       ⟨fitnessId, chainTaskHB⟩] ∧
    analyzeAndDelegateNoClientSrc
      "I just ate a 800 calorie lunch. What exercise should I do?".data =
      [⟨nutritionId,
        "I just ate a 800 calorie lunch. What exercise should I do?".data⟩,
       ⟨fitnessId, chainTaskSrc⟩] := by
  refine ⟨by decide, by decide, by decide⟩

/-- The recorded output of a single worker execution always carries
the delegated agent id and task, whatever the outcome. -/
theorem executeSingleWorker_fields
    (workers : List Char → Option Worker) (a t : List Char)
    (img uc : Option (List Char)) (prev : List WorkerOutput) :
    (executeSingleWorker workers a t img uc prev).output.agent = a ∧
    (executeSingleWorker workers a t img uc prev).output.task = t := by
  unfold executeSingleWorker
  cases h : workers a with
  | none => simp
  | some w =>
    dsimp only
    split <;> simp

/-- The output recorded by one loop iteration carries the delegated
agent id and task. -/
theorem runStep_fields (workers : List Char → Option Worker)
    (img uc : Option (List Char)) (acc : List WorkerOutput)
    (d : Delegation) :
    (runStep workers img uc acc d).2.agent = d.agent ∧
    (runStep workers img uc acc d).2.task = d.task := by
  simpa [runStep] using
    executeSingleWorker_fields workers d.agent d.task img uc acc

/-- The outputs accumulated by the execution loop are the incoming
accumulator followed by one output per remaining delegation, agent and
task matching positionally — for every worker behaviour, including
permanently failing ones. -/
theorem execDelegations_outputs_map
    (workers : List Char → Option Worker)
    (img uc : Option (List Char)) :
    ∀ (ds : List Delegation) (acc : List WorkerOutput),
    ((execDelegations workers img uc ds acc).2).map
        (fun o => (o.agent, o.task)) =
      acc.map (fun o => (o.agent, o.task)) ++
        ds.map (fun d => (d.agent, d.task)) := by
  intro ds
  induction ds with
  | nil => intro acc; simp [execDelegations]
  | cons d rest ih =>
    intro acc
    obtain ⟨hA, hT⟩ := runStep_fields workers img uc acc d
    calc ((execDelegations workers img uc (d :: rest) acc).2).map
          (fun o => (o.agent, o.task))
        = ((execDelegations workers img uc rest
            (acc ++ [(runStep workers img uc acc d).2])).2).map
            (fun o => (o.agent, o.task)) := rfl
      _ = (acc ++ [(runStep workers img uc acc d).2]).map
            (fun o => (o.agent, o.task)) ++
            rest.map (fun d => (d.agent, d.task)) := ih _
      _ = acc.map (fun o => (o.agent, o.task)) ++
            (d :: rest).map (fun d => (d.agent, d.task)) := by
            simp [hA, hT]

/-- C2: every execute run records exactly one WorkerOutput per planned
delegation, in order, for every worker behaviour; a step whose
invocation ends in a propagated exception (retries exhausted or
non-retryable) is converted into a failed WorkerOutput rather than
aborting the loop. -/
theorem c2_one_output_per_delegation :
    (∀ (workers : List Char → Option Worker)
        (img uc : Option (List Char)) (ds : List Delegation),
      ((execDelegations workers img uc ds []).2).length = ds.length) ∧
    (∀ (workers : List Char → Option Worker)
        (img uc : Option (List Char)) (ds : List Delegation),
      ((execDelegations workers img uc ds []).2).map
          (fun o => (o.agent, o.task)) =
        ds.map (fun d => (d.agent, d.task))) ∧
    (∀ (workers : List Char → Option Worker) (a t : List Char)
        (img uc : Option (List Char)) (prev : List WorkerOutput)
        (w : Worker) (m : List Char),
      workers a = some w →
      ((retryExec (w t (buildAgentContext a img uc prev)) 3 1 2).outcome =
          .retryable m ∨
       (retryExec (w t (buildAgentContext a img uc prev)) 3 1 2).outcome =
          .fatal m) →
      (executeSingleWorker workers a t img uc prev).output =
        ⟨a, t, "Error: ".data ++ m, true⟩) := by
  refine ⟨?_, ?_, ?_⟩
  · intro workers img uc ds
    have h := execDelegations_outputs_map workers img uc ds []
    have := congrArg List.length h
    simpa using this
  · intro workers img uc ds
    simpa using execDelegations_outputs_map workers img uc ds []
  · intro workers a t img uc prev w m hw hout
    rcases hout with h | h <;> simp [executeSingleWorker, hw, h]

/-- Witness for C2: a two-step plan over a permanently failing
registry still yields one output per step with matching agents and
tasks, and the failing invocation is recorded as a failed output. -/
theorem c2_one_output_per_delegation_witness :
    ((execDelegations errRegistry none none
      [⟨nutritionId, "log my meal".data⟩, ⟨fitnessId, "plan a run".data⟩]
      []).2).length = 2 ∧
    ((execDelegations errRegistry none none
      [⟨nutritionId, "log my meal".data⟩, ⟨fitnessId, "plan a run".data⟩]
      []).2).map (fun o => (o.agent, o.task)) =
      [(nutritionId, "log my meal".data), (fitnessId, "plan a run".data)] ∧
    (executeSingleWorker errRegistry nutritionId "log my meal".data
      none none []).output =
      ⟨nutritionId, "log my meal".data, "Error: API down".data, true⟩ := by
  refine ⟨c2_one_output_per_delegation.1 errRegistry none none _,
    c2_one_output_per_delegation.2.1 errRegistry none none _,
    c2_one_output_per_delegation.2.2 errRegistry nutritionId
      "log my meal".data none none [] errWorker "API down".data rfl
      (Or.inr rfl)⟩

/-- The synthesizer returns the fixed apology when no output
succeeded. -/
theorem synthesizeResults_none
    (synth : List Char → CallOut (List Char)) (ds : List Delegation)
    (outs : List WorkerOutput)
    (h : outs.filter (fun o => !o.error) = []) :
    synthesizeResults synth ds outs = (.ok apologyMsg, false) := by
  unfold synthesizeResults
  rw [h]

/-- The synthesizer returns the single successful result verbatim. -/
theorem synthesizeResults_single
    (synth : List Char → CallOut (List Char)) (ds : List Delegation)
    (outs : List WorkerOutput) (o : WorkerOutput)
    (h : outs.filter (fun o => !o.error) = [o]) :
    synthesizeResults synth ds outs = (.ok o.result, false) := by
  unfold synthesizeResults
  rw [h]

/-- C4: with zero non-failed outputs the synthesizer returns the fixed
apology string without invoking the synthesis capability; with exactly
one non-failed output it returns that result verbatim without invoking
it; and an execute run in which every step fails returns the apology
string rather than raising. -/
theorem c4_synthesis_dispatch :
    (∀ (synth : List Char → CallOut (List Char)) (ds : List Delegation)
        (outs : List WorkerOutput),
      outs.filter (fun o => !o.error) = [] →
      synthesizeResults synth ds outs = (.ok apologyMsg, false)) ∧
    (∀ (synth : List Char → CallOut (List Char)) (ds : List Delegation)
        (outs : List WorkerOutput) (o : WorkerOutput),
      outs.filter (fun o => !o.error) = [o] →
      synthesizeResults synth ds outs = (.ok o.result, false)) ∧
    (∀ (workers : List Char → Option Worker)
        (plan : List Char → List Delegation)
        (synth : List Char → CallOut (List Char)) (input : List Char)
        (img uc : Option (List Char)),
      (∀ o ∈ (execDelegations workers img uc (plan input) []).2,
        o.error = true) →
      respOf (executeSwarm workers plan synth input img uc) =
        .ok apologyMsg) := by
  refine ⟨synthesizeResults_none, synthesizeResults_single, ?_⟩
  intro workers plan synth input img uc h
  have hfil : ((execDelegations workers img uc (plan input) []).2).filter
      (fun o => !o.error) = [] := by
    apply List.filter_eq_nil_iff.mpr
    intro o ho
    simp [h o ho]
  unfold executeSwarm
  dsimp only
  rw [synthesizeResults_none synth (plan input) _ hfil]
  rfl

/-- Witness for C4: concrete all-failed and single-success output
lists, and a full execute run over a failing registry. -/
theorem c4_synthesis_dispatch_witness :
    synthesizeResults synthOk []
      [⟨nutritionId, "t".data, "boom".data, true⟩] =
      (.ok apologyMsg, false) ∧
    synthesizeResults synthOk []
      [⟨nutritionId, "t".data, "fine".data, false⟩] =
      (.ok "fine".data, false) ∧
    respOf (executeSwarm errRegistry simpleDelegateHB synthOk
      "What should I eat?".data none none) = .ok apologyMsg := by
  refine ⟨c4_synthesis_dispatch.1 synthOk [] _ rfl,
    c4_synthesis_dispatch.2.1 synthOk [] _
      ⟨nutritionId, "t".data, "fine".data, false⟩ rfl,
    c4_synthesis_dispatch.2.2 errRegistry simpleDelegateHB synthOk
      "What should I eat?".data none none (by decide)⟩

/-- C10: a step whose execution fails (unknown worker or propagated
exception) contributes only task and status messages to the bus —
never a result message — while a successful step contributes exactly
one result message, sent from the worker to the coordinator and
carrying the recorded result. -/
theorem c10_result_messages_per_step :
    ∀ (workers : List Char → Option Worker)
      (img uc : Option (List Char)) (acc : List WorkerOutput)
      (d : Delegation),
    ((runStep workers img uc acc d).2.error = true →
      ∀ m ∈ (runStep workers img uc acc d).1,
        (m.mtype = taskType ∨ m.mtype = statusType) ∧
          m.mtype ≠ resultType) ∧
    ((runStep workers img uc acc d).2.error = false →
      ((runStep workers img uc acc d).1).filter
          (fun m => m.mtype == resultType) =
        [⟨d.agent, coordinatorId, resultType,
          (runStep workers img uc acc d).2.result⟩]) := by
  intro workers img uc acc d
  have hts : (taskType == resultType) = false := by decide
  have hss : (statusType == resultType) = false := by decide
  have hrr : (resultType == resultType) = true := by decide
  have hTne : taskType ≠ resultType := by decide
  have hSne : statusType ≠ resultType := by decide
  unfold runStep executeSingleWorker
  cases hw : workers d.agent with
  | none =>
    dsimp only
    constructor
    · intro _ m hm
      simp at hm
      rcases hm with hm | hm
      · rw [hm]; exact ⟨Or.inr rfl, hSne⟩
      · rw [hm]; exact ⟨Or.inl rfl, hTne⟩
    · intro hcon
      simp at hcon
  | some w =>
    dsimp only
    split
    · -- successful invocation
      constructor
      · intro hcon
        simp at hcon
      · intro _
        simp [List.filter, hts, hss, hrr]
    · -- retries exhausted
      constructor
      · intro _ m hm
        simp at hm
        rcases hm with hm | hm | hm
        · rw [hm]; exact ⟨Or.inr rfl, hSne⟩
        · rw [hm]; exact ⟨Or.inl rfl, hTne⟩
        · rw [hm]; exact ⟨Or.inr rfl, hSne⟩
      · intro hcon
        simp at hcon
    · -- non-retryable failure
      constructor
      · intro _ m hm
        simp at hm
        rcases hm with hm | hm | hm
        · rw [hm]; exact ⟨Or.inr rfl, hSne⟩
        · rw [hm]; exact ⟨Or.inl rfl, hTne⟩
        · rw [hm]; exact ⟨Or.inr rfl, hSne⟩
      · intro hcon
        simp at hcon

/-- Witness for C10: the failed step leaves no result-typed message on
the bus, the successful step leaves exactly one. -/
theorem c10_result_messages_per_step_witness :
    ((runStep noWorkers none none []
      ⟨"ghost".data, "x".data⟩).1).filter
      (fun m => m.mtype == resultType) = [] ∧
    ((runStep okRegistry none none []
      ⟨nutritionId, "x".data⟩).1).filter
      (fun m => m.mtype == resultType) =
      [⟨nutritionId, coordinatorId, resultType, "All good".data⟩] := by
  constructor
  · apply List.filter_eq_nil_iff.mpr
    intro m hm
    have := (c10_result_messages_per_step noWorkers none none []
      ⟨"ghost".data, "x".data⟩).1 (by decide) m hm
    simpa using this.2
  · have := (c10_result_messages_per_step okRegistry none none []
      ⟨nutritionId, "x".data⟩).2 (by decide)
    simpa using this

/-- Writing a cell and reading it back yields the written value. -/
theorem readCell_write_self (h : BusHeap) (r : Nat) (v : List Message)
    (hr : r < h.cells.length) :
    readCell (writeCell h r v) r = v := by
  unfold readCell writeCell
  rw [List.getD_eq_getElem?_getD, List.getElem?_set_self hr]
  rfl

/-- Writing one cell leaves every other cell unchanged. -/
theorem readCell_write_ne (h : BusHeap) (rw rd : Nat) (v : List Message)
    (hne : rw ≠ rd) :
    readCell (writeCell h rw v) rd = readCell h rd := by
  unfold readCell writeCell
  rw [List.getD_eq_getElem?_getD, List.getD_eq_getElem?_getD,
    List.getElem?_set_ne (by omega)]

/-- Allocating a fresh cell leaves existing cells readable
unchanged. -/
theorem readCell_alloc (h : BusHeap) (x : List Message) (r : Nat)
    (hr : r < h.cells.length) :
    readCell ⟨h.cells ++ [x]⟩ r = readCell h r := by
  unfold readCell
  rw [List.getD_eq_getElem?_getD, List.getD_eq_getElem?_getD,
    List.getElem?_append, if_pos hr]

/-- C9: sending one message grows the bus log by exactly one, the last
entry carrying the sent fields; and the list returned by
get_all_messages is a defensive copy — appending to it or clearing it
leaves the bus log unchanged. -/
theorem c9_send_and_defensive_copy :
    ∀ (h : BusHeap) (bus : Nat) (f t k c : List Char) (m : Message),
    bus < h.cells.length →
    (readCell (busSend h bus f t k c) bus).length =
      (readCell h bus).length + 1 ∧
    (readCell (busSend h bus f t k c) bus).getLast? =
      some ⟨f, t, k, c⟩ ∧
    readCell (listAppendH (getAllMessagesH h bus).1
      (getAllMessagesH h bus).2 m) bus = readCell h bus ∧
    readCell (listClearH (getAllMessagesH h bus).1
      (getAllMessagesH h bus).2) bus = readCell h bus := by
  intro h bus f t k c m hb
  have hsend : readCell (busSend h bus f t k c) bus =
      readCell h bus ++ [⟨f, t, k, c⟩] :=
    readCell_write_self h bus _ hb
  have hne : h.cells.length ≠ bus := by omega
  refine ⟨?_, ?_, ?_, ?_⟩
  · rw [hsend]; simp
  · rw [hsend]; exact List.getLast?_concat _
  · show readCell (writeCell ⟨h.cells ++ [readCell h bus]⟩
      h.cells.length _) bus = readCell h bus
    rw [readCell_write_ne _ _ _ _ hne]
    exact readCell_alloc h _ bus hb
  · show readCell (writeCell ⟨h.cells ++ [readCell h bus]⟩
      h.cells.length []) bus = readCell h bus
    rw [readCell_write_ne _ _ _ _ hne]
    exact readCell_alloc h _ bus hb

/-- Witness for C9 on a one-cell heap holding an empty log. -/
theorem c9_send_and_defensive_copy_witness :
    (readCell (busSend ⟨[[]]⟩ 0 userId coordinatorId taskType
      "hi".data) 0).length = 1 ∧
    (readCell (busSend ⟨[[]]⟩ 0 userId coordinatorId taskType
      "hi".data) 0).getLast? =
      some ⟨userId, coordinatorId, taskType, "hi".data⟩ ∧
    readCell (listAppendH (getAllMessagesH ⟨[[]]⟩ 0).1
      (getAllMessagesH ⟨[[]]⟩ 0).2
      ⟨"a".data, "b".data, "c".data, "d".data⟩) 0 = [] ∧
    readCell (listClearH (getAllMessagesH ⟨[[]]⟩ 0).1
      (getAllMessagesH ⟨[[]]⟩ 0).2) 0 = [] := by
  have := c9_send_and_defensive_copy ⟨[[]]⟩ 0 userId coordinatorId
    taskType "hi".data ⟨"a".data, "b".data, "c".data, "d".data⟩
    (by decide)
  exact ⟨this.1, this.2.1, this.2.2.1, this.2.2.2⟩

end HealthButler
